import Mathlib

/-!
Verification development for the internal-secrets-operator control loop.

The Go sources are embedded shallowly:

* machine integers become `Int`/`Nat` (durations and instants are `Int`
  nanoseconds since the Unix epoch; the maintenance-window evaluator works
  in `Int` minutes since the Unix epoch, matching its minute granularity);
* Go maps become association lists with first-match lookup;
* fallible code returns `Option`/`Except`;
* the cryptographic random source becomes an explicit byte stream
  `rnd : Nat → Nat` consumed at an offset, so every run is deterministic;
* `time.LoadLocation` becomes a lookup in an explicit zone database mapping
  an IANA name to a fixed offset in minutes (daylight-saving shifts are not
  modelled; no claim depends on them).
-/

namespace ISO

/-! ## Association-list maps (Go `map[string]string`, `map[string][]byte`) -/

def lookupA {α : Type} : List (String × α) → String → Option α
  | [], _ => none
  | (k, v) :: t, key => if k = key then some v else lookupA t key

def setA {α : Type} : List (String × α) → String → α → List (String × α)
  | [], key, v => [(key, v)]
  | (k, w) :: t, key, v => if k = key then (key, v) :: t else (k, w) :: setA t key v

/-! ## Go `strconv.Atoi`

Optional sign, then one or more decimal digits, nothing else; the value must
fit in a signed 64-bit integer. -/

def digitsToNat : List Char → Option Nat
  | [] => none
  | cs =>
    if cs.all Char.isDigit then
      some (cs.foldl (fun acc c => acc * 10 + (c.toNat - 48)) 0)
    else none

def int64Max : Int := 9223372036854775807
def int64Min : Int := -9223372036854775808

def goAtoi (s : String) : Option Int :=
  let parse : List Char → Bool → Option Int := fun cs neg =>
    match digitsToNat cs with
    | some n =>
      let v : Int := if neg then -(n : Int) else (n : Int)
      if int64Min ≤ v ∧ v ≤ int64Max then some v else none
    | none => none
  match s.toList with
  | [] => none
  | '+' :: rest => parse rest false
  | '-' :: rest => parse rest true
  | cs => parse cs false

/-! ## Character-list string helpers

Lean's own `String.splitOn`, `String.trim` and `String.toLower` are defined
by well-founded recursion over byte positions and do not reduce inside the
kernel, so the Go string operations are modelled structurally over
`List Char`. -/

/-- `strings.Split` on a single separator character (splitting the empty
string yields one empty part, as in Go). -/
def splitChar (sep : Char) : List Char → List (List Char)
  | [] => [[]]
  | c :: rest =>
    let r := splitChar sep rest
    if c = sep then [] :: r
    else
      match r with
      | g :: gs => (c :: g) :: gs
      | [] => [[c]]

/-- `strings.TrimSpace` (the inputs in play are ASCII). -/
def trimL (l : List Char) : List Char :=
  ((l.dropWhile Char.isWhitespace).reverse.dropWhile Char.isWhitespace).reverse

/-! ## `parseFields` (controller): comma-separated list, entries trimmed,
empty entries dropped. -/

def parseFields (value : String) : List String :=
  ((((splitChar ',' value.toList).map trimL).filter (fun f => f ≠ [])).map String.mk)

/-! ## `config.ParseDuration`

Modelled from the spec: `config.ParseDuration` (package `pkg/config`, whose
`config.go` is not in the sources) accepts the Go duration grammar with an
additional day unit, `d` = 24h; examples in the spec are `5m`, `1h`, `24h`,
`7d`, `1h30m`, and unparseable values are rejected.  The model accepts an
optional leading sign, the literal `0`, and one or more integer+unit
components (fractional components are not modelled; no claim exercises
them).  The result is in nanoseconds. -/

def durationUnitNs (u : List Char) : Option Int :=
  if u = ['n', 's'] then some 1
  else if u = ['u', 's'] then some 1000
  else if u = ['m', 's'] then some 1000000
  else if u = ['s'] then some 1000000000
  else if u = ['m'] then some 60000000000
  else if u = ['h'] then some 3600000000000
  else if u = ['d'] then some 86400000000000
  else none

def parseDurComponents : Nat → List Char → Option Int
  | _, [] => some 0
  | 0, _ => none
  | fuel + 1, cs =>
    let ds := cs.takeWhile Char.isDigit
    let rest := cs.dropWhile Char.isDigit
    match digitsToNat ds with
    | none => none
    | some v =>
      let us := rest.takeWhile (fun c => ¬ c.isDigit)
      let rest' := rest.dropWhile (fun c => ¬ c.isDigit)
      match durationUnitNs us with
      | none => none
      | some unit =>
        match parseDurComponents fuel rest' with
        | none => none
        | some acc => some ((v : Int) * unit + acc)

def parseDuration (s : String) : Option Int :=
  match s.toList with
  | [] => none
  | cs =>
    let neg := cs.head? = some '-'
    let cs' := if cs.head? = some '-' ∨ cs.head? = some '+' then cs.tail else cs
    if cs' = ['0'] then some 0
    else if cs' = [] then none
    else
      match parseDurComponents cs'.length cs' with
      | some v => some (if neg then -v else v)
      | none => none

/-! ## RFC 3339 timestamps (`time.Parse(time.RFC3339, s)` and
`t.Format(time.RFC3339)`)

The parser requires the exact shape
`YYYY-MM-DDTHH:MM:SS[.fff...](Z|±HH:MM)` with range-checked components and
returns nanoseconds since the Unix epoch.  The formatter prints a UTC
instant (the controller under test formats the injected clock, which the
tests run in UTC). -/

def isLeapYear (y : Int) : Bool :=
  (y % 4 = 0 ∧ y % 100 ≠ 0) ∨ y % 400 = 0

def daysInMonth (y m : Int) : Int :=
  if m = 1 ∨ m = 3 ∨ m = 5 ∨ m = 7 ∨ m = 8 ∨ m = 10 ∨ m = 12 then 31
  else if m = 4 ∨ m = 6 ∨ m = 9 ∨ m = 11 then 30
  else if isLeapYear y then 29 else 28

/-- Days from 1970-01-01 to the civil date y-m-d (Hinnant's algorithm,
with Euclidean division, which agrees with floor division for the positive
divisors used here). -/
def daysFromCivil (y m d : Int) : Int :=
  let y' := if m ≤ 2 then y - 1 else y
  let era := y' / 400
  let yoe := y' - era * 400
  let mp := if m > 2 then m - 3 else m + 9
  let doy := (153 * mp + 2) / 5 + d - 1
  let doe := yoe * 365 + yoe / 4 - yoe / 100 + doy
  era * 146097 + doe - 719468

/-- Civil date (y, m, d) from days since 1970-01-01. -/
def civilFromDays (z0 : Int) : Int × Int × Int :=
  let z := z0 + 719468
  let era := z / 146097
  let doe := z - era * 146097
  let yoe := (doe - doe / 1460 + doe / 36524 - doe / 146096) / 365
  let y := yoe + era * 400
  let doy := doe - (365 * yoe + yoe / 4 - yoe / 100)
  let mp := (5 * doy + 2) / 153
  let d := doy - (153 * mp + 2) / 5 + 1
  let m := if mp < 10 then mp + 3 else mp - 9
  (if m ≤ 2 then y + 1 else y, m, d)

def twoDigits : List Char → Option Int
  | [a, b] =>
    if a.isDigit ∧ b.isDigit then some ((a.toNat - 48) * 10 + (b.toNat - 48) : Nat)
    else none
  | _ => none

def fracNanos (ds : List Char) : Int :=
  let padded := (ds.take 9) ++ List.replicate (9 - ds.length) '0'
  ((padded.foldl (fun acc c => acc * 10 + (c.toNat - 48)) 0 : Nat) : Int)

def parseRFC3339 (s : String) : Option Int :=
  match s.toList with
  | y1 :: y2 :: y3 :: y4 :: '-' :: m1 :: m2 :: '-' :: d1 :: d2 :: 'T' ::
    h1 :: h2 :: ':' :: mi1 :: mi2 :: ':' :: s1 :: s2 :: rest =>
    if ([y1, y2, y3, y4].all Char.isDigit) then
      let y : Int :=
        ((y1.toNat - 48) * 1000 + (y2.toNat - 48) * 100 + (y3.toNat - 48) * 10 +
          (y4.toNat - 48) : Nat)
      match twoDigits [m1, m2], twoDigits [d1, d2], twoDigits [h1, h2],
            twoDigits [mi1, mi2], twoDigits [s1, s2] with
      | some mo, some da, some ho, some mi, some se =>
        if 1 ≤ mo ∧ mo ≤ 12 ∧ 1 ≤ da ∧ da ≤ daysInMonth y mo ∧
           ho ≤ 23 ∧ mi ≤ 59 ∧ se ≤ 59 then
          let frac := rest.takeWhile (fun c => c = '.' ∨ c.isDigit)
          let zone := rest.dropWhile (fun c => c = '.' ∨ c.isDigit)
          let fracOk : Option Int :=
            match frac with
            | [] => some 0
            | '.' :: ds => if ds ≠ [] ∧ ds.all Char.isDigit then some (fracNanos ds) else none
            | _ => none
          let zoneOff : Option Int :=
            match zone with
            | ['Z'] => some 0
            | sgn :: z1 :: z2 :: ':' :: z3 :: z4 :: [] =>
              if sgn = '+' ∨ sgn = '-' then
                match twoDigits [z1, z2], twoDigits [z3, z4] with
                | some zh, some zm =>
                  if zh ≤ 23 ∧ zm ≤ 59 then
                    some (if sgn = '-' then -(zh * 3600 + zm * 60) else zh * 3600 + zm * 60)
                  else none
                | _, _ => none
              else none
            | _ => none
          match fracOk, zoneOff with
          | some fns, some zoff =>
            some ((daysFromCivil y mo da * 86400 + ho * 3600 + mi * 60 + se - zoff) *
              1000000000 + fns)
          | _, _ => none
        else none
      | _, _, _, _, _ => none
    else none
  | _ => none

def padNum (w : Nat) (n : Int) : String :=
  let s := toString n.toNat
  String.mk (List.replicate (w - s.length) '0') ++ s

def formatRFC3339 (ns : Int) : String :=
  let secs := ns / 1000000000
  let days := secs / 86400
  let rem := secs % 86400
  let (y, m, d) := civilFromDays days
  padNum 4 y ++ "-" ++ padNum 2 m ++ "-" ++ padNum 2 d ++ "T" ++
    padNum 2 (rem / 3600) ++ ":" ++ padNum 2 (rem / 60 % 60) ++ ":" ++
    padNum 2 (rem % 60) ++ "Z"

/-! ## Value generator (`pkg/generator/generator.go`)

The cryptographic random source is modelled as an explicit byte stream
`rnd : Nat → Nat`; a call consuming `n` bytes reads `rnd off`, ...,
`rnd (off + n - 1)` (each reduced mod 256) and advances the offset, so a
whole reconciliation is deterministic in `rnd`.  Generated values are byte
lists (Go strings are byte strings; the charsets in use are ASCII). -/

inductive GenError where
  | nonPositiveLength (n : Int)
  | emptyCharset
  | keypairViaGeneric
  | unknownType (t : String)
deriving DecidableEq

def alphanumericCharset : String :=
  "abcdefghijklmnopqrstuvwxyzABCDEFGHIJKLMNOPQRSTUVWXYZ0123456789"

/-- Modelled from the spec: the generation-type constants of the missing
`pkg/config/config.go` (`config.DefaultType` = `string`, `config.TypeBytes`
= `bytes`, `config.TypeRSA`/`TypeECDSA`/`TypeEd25519` = the names used by
the annotation surface and the generator tests). -/
def configDefaultType : String := "string"

def configTypeBytes : String := "bytes"

def configTypeRSA : String := "rsa"

def configTypeECDSA : String := "ecdsa"

def configTypeEd25519 : String := "ed25519"

def generateStringWithCharset (rnd : Nat → Nat) (off : Nat) (length : Int)
    (charset : String) : Except GenError (List Nat × Nat) :=
  if length ≤ 0 then .error (.nonPositiveLength length)
  else if charset = "" then .error .emptyCharset
  else
    let n := length.toNat
    let cl := charset.toList
    let value := (List.range n).map
      (fun i => (cl.getD (rnd (off + i) % 256 % cl.length) 'a').toNat)
    .ok (value, off + n)

def generateBytes (rnd : Nat → Nat) (off : Nat) (length : Int) :
    Except GenError (List Nat × Nat) :=
  if length ≤ 0 then .error (.nonPositiveLength length)
  else
    let n := length.toNat
    .ok ((List.range n).map (fun i => rnd (off + i) % 256), off + n)

def generateWithCharset (rnd : Nat → Nat) (off : Nat) (genType : String)
    (length : Int) (charset : String) : Except GenError (List Nat × Nat) :=
  if genType = configDefaultType ∨ genType = "" then
    generateStringWithCharset rnd off length charset
  else if genType = configTypeBytes then
    generateBytes rnd off length
  else if genType = configTypeRSA ∨ genType = configTypeECDSA ∨ genType = configTypeEd25519 then
    .error .keypairViaGeneric
  else .error (.unknownType genType)

/-- `SecretGenerator.Generate`: delegates to `GenerateWithCharset` with the
default charset of the generator instance. -/
def generate (defaultCharset : String) (rnd : Nat → Nat) (off : Nat)
    (genType : String) (length : Int) : Except GenError (List Nat × Nat) :=
  generateWithCharset rnd off genType length defaultCharset

/-! ## Maintenance windows (`pkg/config/maintenance_window.go`) -/

structure MaintenanceWindow where
  name : String
  days : List String
  startTime : String
  endTime : String
  timezone : String
deriving DecidableEq

structure MaintenanceWindowsConfig where
  enabled : Bool
  windows : List MaintenanceWindow
deriving DecidableEq

/-- The zone database behind `time.LoadLocation`: IANA name to a fixed
offset in minutes east of UTC. -/
abbrev ZoneDB := List (String × Int)

def loadLocation (db : ZoneDB) (name : String) : Option Int := lookupA db name

/-- `ParseDay`: trim, lower-case, look up among the seven day names.
The Go function returns `(Sunday, error)` on failure; the model returns
`none`. Weekday numbering follows Go: Sunday = 0. -/
def parseDay (s : String) : Option Int :=
  let n := String.mk ((trimL s.toList).map Char.toLower)
  if n = "sunday" then some 0
  else if n = "monday" then some 1
  else if n = "tuesday" then some 2
  else if n = "wednesday" then some 3
  else if n = "thursday" then some 4
  else if n = "friday" then some 5
  else if n = "saturday" then some 6
  else none

/-- The leading-integer scan of `fmt.Sscanf("%d", ...)`: skip leading
spaces, optional sign, at least one digit, trailing characters ignored. -/
def scanInt (cs : List Char) : Option Int :=
  let cs := cs.dropWhile (fun c => c.isWhitespace)
  let core : List Char → Bool → Option Int := fun l neg =>
    let ds := l.takeWhile Char.isDigit
    match digitsToNat ds with
    | some n => some (if neg then -(n : Int) else (n : Int))
    | none => none
  match cs with
  | '+' :: rest => core rest false
  | '-' :: rest => core rest true
  | _ => core cs false

/-- `ParseTime`: `HH:MM`, exactly two colon-separated parts, each scanned
with `%d`, hour in 0..23 and minute in 0..59. -/
def parseTime (s : String) : Option (Int × Int) :=
  if s = "" then none
  else
    match splitChar ':' s.toList with
    | [hs, ms] =>
      match scanInt hs, scanInt ms with
      | some h, some m =>
        if h < 0 ∨ h > 23 then none
        else if m < 0 ∨ m > 59 then none
        else some (h, m)
      | _, _ => none
    | _ => none

/-- The Go call sites discard the `ParseTime` error and use the zero
values, so a failing parse behaves as `(0, 0)`. -/
def parseTimeD (s : String) : Int × Int := (parseTime s).getD (0, 0)

/-- `MaintenanceWindow.Validate` as a decidable check (the Go error
strings are dropped). -/
def validateWindow (db : ZoneDB) (w : MaintenanceWindow) : Bool :=
  w.days ≠ [] ∧
  w.days.all (fun d => (parseDay d).isSome) ∧
  (parseTime w.startTime).isSome ∧
  (parseTime w.endTime).isSome ∧
  ((parseTimeD w.startTime).1 * 60 + (parseTimeD w.startTime).2 <
    (parseTimeD w.endTime).1 * 60 + (parseTimeD w.endTime).2) ∧
  w.timezone ≠ "" ∧
  (loadLocation db w.timezone).isSome

/-- Go weekday (Sunday = 0) of the civil day containing the instant, in a
zone with the given offset; the Unix epoch fell on a Thursday. `t` is in
minutes since the epoch. -/
def weekdayAt (off t : Int) : Int := ((t + off) / 1440 + 4) % 7

/-- `localTime.Hour()*60 + localTime.Minute()`. -/
def minuteOfDayAt (off t : Int) : Int := (t + off) % 1440

def IsInWindow (db : ZoneDB) (w : MaintenanceWindow) (t : Int) : Bool :=
  match loadLocation db w.timezone with
  | none => false
  | some off =>
    let currentDay := weekdayAt off t
    let dayMatches := w.days.any (fun d =>
      match parseDay d with
      | some wd => wd == currentDay
      | none => false)
    if ¬ dayMatches then false
    else
      let sp := parseTimeD w.startTime
      let ep := parseTimeD w.endTime
      let cur := minuteOfDayAt off t
      decide (sp.1 * 60 + sp.2 ≤ cur ∧ cur < ep.1 * 60 + ep.2)

def IsInAnyWindow (db : ZoneDB) (m : MaintenanceWindowsConfig) (t : Int) : Bool :=
  if ¬ m.enabled then true
  else m.windows.any (fun w => IsInWindow db w t)

/-- The Go zero `time.Time` (0001-01-01T00:00:00 UTC) in minutes since the
Unix epoch. -/
def goZeroTime : Int := -1035593280

def NextStart (db : ZoneDB) (w : MaintenanceWindow) (t : Int) : Int :=
  match loadLocation db w.timezone with
  | none => goZeroTime
  | some off =>
    let sp := parseTimeD w.startTime
    let ep := parseTimeD w.endTime
    let windowDays := w.days.filterMap parseDay
    if windowDays = [] then goZeroTime
    else
      let localMin := t + off
      let currentDay := weekdayAt off t
      let cur := minuteOfDayAt off t
      let startM := sp.1 * 60 + sp.2
      let endM := ep.1 * 60 + ep.2
      let todayStart := localMin / 1440 * 1440 + startM - off
      if windowDays.contains currentDay &&
          (decide (cur < startM) || (decide (startM ≤ cur) && decide (cur < endM))) then
        todayStart
      else
        match (List.range' 1 7).find?
            (fun (k : Nat) => windowDays.contains ((currentDay + (k : Int)) % 7)) with
        | some k => todayStart + (k : Int) * 1440
        | none => goZeroTime

/-- The body of the `NextWindowStart` accumulation: keep the earlier of
the running earliest and the next candidate, where a zero `earliest`
(`IsZero`) is always replaced. -/
def earliestOf (earliest next : Int) : Int :=
  if earliest == goZeroTime || next < earliest then next else earliest

def NextWindowStart (db : ZoneDB) (m : MaintenanceWindowsConfig) (t : Int) : Int :=
  if ¬ m.enabled ∨ m.windows = [] then goZeroTime
  else
    m.windows.foldl (fun earliest w => earliestOf earliest (NextStart db w t)) goZeroTime

def DurationUntilNextWindow (db : ZoneDB) (m : MaintenanceWindowsConfig) (t : Int) : Int :=
  if ¬ m.enabled then 0
  else if IsInAnyWindow db m t then 0
  else
    let next := NextWindowStart db m t
    if next == goZeroTime then 0 else next - t

/-! ## Secret controller (`internal/controller/secret_controller.go`) -/

def keyBase : String := "iso.gtrfc.com/"

def keyAutogenerate : String := keyBase ++ "autogenerate"

def keyType : String := keyBase ++ "type"

def keyLength : String := keyBase ++ "length"

def keyGeneratedAt : String := keyBase ++ "generated-at"

def keyRotate : String := keyBase ++ "rotate"

def keyTypeField (f : String) : String := keyBase ++ "type." ++ f

def keyLengthField (f : String) : String := keyBase ++ "length." ++ f

def keyRotateField (f : String) : String := keyBase ++ "rotate." ++ f

def reasonGenerationFailed : String := "GenerationFailed"

def reasonGenerationSucceeded : String := "GenerationSucceeded"

def reasonRotationSucceeded : String := "RotationSucceeded"

def reasonRotationFailed : String := "RotationFailed"

/-- One `EventRecorder.Event` call: severity, reason code, and the field
the message refers to (empty for object-level events). -/
structure Event where
  warning : Bool
  reason : String
  field : String
deriving DecidableEq

/-- The configuration fields the controller reads, plus the
maintenance-windows block.  Modelled from the spec: the missing
`pkg/config/config.go` carries `Rotation.MinInterval` (nanoseconds here),
`Rotation.CreateEvents`, `Defaults.Type`, `Defaults.Length` and
`Rotation.MaintenanceWindows`. -/
structure Config where
  minInterval : Int
  createEvents : Bool
  defaultType : String
  defaultLength : Int
  maintenanceWindows : MaintenanceWindowsConfig
deriving DecidableEq

/-- The managed secret object: `data` (field name to byte payload) and
string `annotations`, both Go maps modelled as association lists. -/
structure SecretObj where
  data : List (String × List Nat)
  annotations : List (String × String)
deriving DecidableEq

/-- `getAnnotationOrDefault`: the annotation if present and non-empty,
otherwise the default. -/
def getAnnotationOrDefault (anns : List (String × String)) (key default : String) : String :=
  match lookupA anns key with
  | some v => if v ≠ "" then v else default
  | none => default

/-- `getLengthAnnotation`: object-wide length annotation if it parses to a
positive integer, otherwise the configured default length. -/
def getLengthAnnotation (defaultLength : Int) (anns : List (String × String)) : Int :=
  match lookupA anns keyLength with
  | some v =>
    if v ≠ "" then
      match goAtoi v with
      | some n => if n > 0 then n else defaultLength
      | none => defaultLength
    else defaultLength
  | none => defaultLength

/-- `getFieldType`: `type.<field>` annotation if present and non-empty,
else the object-wide `type`, else the configured default type. -/
def getFieldType (defaultType : String) (anns : List (String × String)) (f : String) : String :=
  match lookupA anns (keyTypeField f) with
  | some v => if v ≠ "" then v else getAnnotationOrDefault anns keyType defaultType
  | none => getAnnotationOrDefault anns keyType defaultType

/-- `getFieldLength`: `length.<field>` annotation if it parses to a
positive integer, else `getLengthAnnotation`. -/
def getFieldLength (defaultLength : Int) (anns : List (String × String)) (f : String) : Int :=
  match lookupA anns (keyLengthField f) with
  | some v =>
    if v ≠ "" then
      match goAtoi v with
      | some n => if n > 0 then n else getLengthAnnotation defaultLength anns
      | none => getLengthAnnotation defaultLength anns
    else getLengthAnnotation defaultLength anns
  | none => getLengthAnnotation defaultLength anns

/-- `getFieldRotationInterval`: `rotate.<field>` if it parses as a
duration, else `rotate`, else 0 (no rotation). -/
def getFieldRotationInterval (anns : List (String × String)) (f : String) : Int :=
  let fromGlobal : Int :=
    match lookupA anns keyRotate with
    | some v =>
      if v ≠ "" then
        match parseDuration v with
        | some d => d
        | none => 0
      else 0
    | none => 0
  match lookupA anns (keyRotateField f) with
  | some v =>
    if v ≠ "" then
      match parseDuration v with
      | some d => d
      | none => fromGlobal
    else fromGlobal
  | none => fromGlobal

/-- `getGeneratedAtTime`: the `generated-at` annotation if present,
non-empty and valid RFC 3339, otherwise `none`. -/
def getGeneratedAtTime (anns : List (String × String)) : Option Int :=
  match lookupA anns keyGeneratedAt with
  | some v => if v ≠ "" then parseRFC3339 v else none
  | none => none

/-- The mutable state of the per-field loop in `Reconcile`. -/
structure LoopState where
  data : List (String × List Nat)
  changed : Bool
  rotated : Bool
  nextRotation : Option Int
  events : List Event
  rndOff : Nat
deriving DecidableEq

/-- The update `if nextRotation == nil || c < *nextRotation` of the
candidate accumulator. -/
def minFoldStep (acc : Option Int) (c : Int) : Option Int :=
  match acc with
  | none => some c
  | some x => if c < x then some c else some x

inductive FieldStep where
  | cont (st : LoopState)
  | fail (evs : List Event) (e : GenError)
deriving DecidableEq

/-- The tail of one loop iteration (lines 193-222 of the controller):
skip a field that already has a value and needs no rotation, otherwise
resolve the generation parameters and generate; a failure aborts with a
warning, a success stores the value and marks the object changed. -/
def genStep (defT : String) (defL : Int) (anns : List (String × String))
    (rnd : Nat → Nat) (charset : String) (f : String) (needsRotation : Bool)
    (st : LoopState) : FieldStep :=
  if (lookupA st.data f).isSome ∧ ¬ needsRotation then .cont st
  else
    match generateWithCharset rnd st.rndOff (getFieldType defT anns f)
        (getFieldLength defL anns f) charset with
    | .error e => .fail (st.events ++ [⟨true, reasonGenerationFailed, f⟩]) e
    | .ok (value, off') =>
      .cont { st with
        data := setA st.data f value
        changed := true
        rotated := st.rotated || needsRotation
        rndOff := off' }

/-- One iteration of the field loop of `Reconcile` (lines 157-222 of the
controller): rotation-interval resolution, minimum-interval guard,
due/not-due decision, then the `genStep` tail. -/
def processField (minI : Int) (defT : String) (defL : Int)
    (anns : List (String × String)) (generatedAt : Option Int) (now : Int)
    (rnd : Nat → Nat) (charset : String) (f : String) (st : LoopState) : FieldStep :=
  let interval := getFieldRotationInterval anns f
  match generatedAt with
  | some g =>
    if interval > 0 then
      if interval < minI then
        .cont { st with events := st.events ++ [⟨true, reasonRotationFailed, f⟩] }
      else
        let timeSince := now - g
        if timeSince ≥ interval then genStep defT defL anns rnd charset f true st
        else genStep defT defL anns rnd charset f false
          { st with nextRotation := minFoldStep st.nextRotation (interval - timeSince) }
    else genStep defT defL anns rnd charset f false st
  | none =>
    if interval > 0 then
      genStep defT defL anns rnd charset f false
        { st with nextRotation := minFoldStep st.nextRotation interval }
    else genStep defT defL anns rnd charset f false st

def processFields (minI : Int) (defT : String) (defL : Int)
    (anns : List (String × String)) (generatedAt : Option Int) (now : Int)
    (rnd : Nat → Nat) (charset : String) :
    List String → LoopState → Except (List Event × GenError) LoopState
  | [], st => .ok st
  | f :: rest, st =>
    match processField minI defT defL anns generatedAt now rnd charset f st with
    | .cont st' => processFields minI defT defL anns generatedAt now rnd charset rest st'
    | .fail evs e => .error (evs, e)

/-- The outcome of one `Reconcile` call: the persisted secret (the write
happens at most once, after the loop), the `RequeueAfter` delay, the
emitted events, whether an update was written, and the error returned to
the caller. -/
structure ReconcileResult where
  secret : SecretObj
  requeueAfter : Option Int
  events : List Event
  wrote : Bool
  err : Option GenError
deriving DecidableEq

/-- `Reconcile` (the write-back `r.Update` is modelled as succeeding; on a
generation error no update is attempted, so the persisted object is the
input one — in the Go loop a data write always sets `changed`, so in the
unchanged branch the in-memory object equals the input as well). -/
def reconcile (cfg : Config) (secret : SecretObj) (now : Int)
    (rnd : Nat → Nat) (charset : String) : ReconcileResult :=
  let noop : ReconcileResult := ⟨secret, none, [], false, none⟩
  match lookupA secret.annotations keyAutogenerate with
  | none => noop
  | some autogen =>
    if autogen = "" then noop
    else
      let fields := parseFields autogen
      if fields = [] then noop
      else
        let generatedAt := getGeneratedAtTime secret.annotations
        let st0 : LoopState := ⟨secret.data, false, false, none, [], 0⟩
        match processFields cfg.minInterval cfg.defaultType cfg.defaultLength
            secret.annotations generatedAt now rnd charset fields st0 with
        | .error (evs, e) => ⟨secret, none, evs, false, some e⟩
        | .ok st =>
          if st.changed then
            let anns' := setA secret.annotations keyGeneratedAt (formatRFC3339 now)
            let evs' := st.events ++
              (if st.rotated then
                (if cfg.createEvents then [⟨false, reasonRotationSucceeded, ""⟩] else [])
              else [⟨false, reasonGenerationSucceeded, ""⟩])
            let next' := fields.foldl
              (fun acc f =>
                let i := getFieldRotationInterval anns' f
                if i > 0 then minFoldStep acc i else acc)
              st.nextRotation
            ⟨⟨st.data, anns'⟩, next', evs', true, none⟩
          else ⟨secret, st.nextRotation, st.events, false, none⟩

/-! ## Specification-side characterizations -/

/-- A length annotation that is present, non-empty and parses to a
positive integer. -/
def posLengthAnn (anns : List (String × String)) (key : String) : Option Int :=
  match lookupA anns key with
  | some v =>
    if v = "" then none
    else
      match goAtoi v with
      | some n => if 0 < n then some n else none
      | none => none
  | none => none

/-- The three-level cascade as the spec words it: field-specific length if
it parses to a positive integer, else the object-wide length, else the
global default. -/
def lengthCascade (defL : Int) (anns : List (String × String)) (f : String) : Int :=
  match posLengthAnn anns (keyLengthField f) with
  | some n => n
  | none =>
    match posLengthAnn anns keyLength with
    | some n => n
    | none => defL

/-- The requeue candidate contributed by one field occurrence inside the
per-field loop (before any write). -/
def preCandidate (minI : Int) (anns : List (String × String))
    (generatedAt : Option Int) (now : Int) (f : String) : Option Int :=
  let interval := getFieldRotationInterval anns f
  match generatedAt with
  | some g =>
    if interval > 0 then
      if interval < minI then none
      else if now - g ≥ interval then none
      else some (interval - (now - g))
    else none
  | none => if interval > 0 then some interval else none

/-- The requeue candidate contributed by one field occurrence in the
post-write recomputation loop. -/
def postCandidate (anns : List (String × String)) (f : String) : Option Int :=
  let i := getFieldRotationInterval anns f
  if i > 0 then some i else none

def minFold (acc : Option Int) (l : List Int) : Option Int :=
  l.foldl minFoldStep acc

/-- The number of `RotationFailed` warnings for one field in an event
list. -/
def warnCountRotation (evs : List Event) (f : String) : Nat :=
  evs.countP (fun e => e.warning && (e.reason == reasonRotationFailed) && (e.field == f))

/-- The fields a reconcile call will iterate over. -/
def reconcileFields (secret : SecretObj) : List String :=
  match lookupA secret.annotations keyAutogenerate with
  | some v => parseFields v
  | none => []

/-- The weekdays of a window as parsed day numbers (entries that do not
parse are skipped, exactly as the Go loops do). -/
def windowWeekdays (w : MaintenanceWindow) : List Int :=
  w.days.filterMap parseDay

def startMinutesOf (w : MaintenanceWindow) : Int :=
  (parseTimeD w.startTime).1 * 60 + (parseTimeD w.startTime).2

def endMinutesOf (w : MaintenanceWindow) : Int :=
  (parseTimeD w.endTime).1 * 60 + (parseTimeD w.endTime).2

/-! ## Concrete inputs used by the claim theorems and witnesses -/

def dbUTC : ZoneDB := [("UTC", 0)]

def c6Window : MaintenanceWindow :=
  ⟨"weekend-night", ["saturday"], "03:00", "05:00", "UTC"⟩

/-- Saturday 2026-02-07 04:00 UTC in minutes since the epoch. -/
def c6Time : Int := 29507280

def c7Config : MaintenanceWindowsConfig :=
  ⟨true,
   [⟨"saturday-window", ["saturday"], "03:00", "05:00", "UTC"⟩,
    ⟨"wednesday-window", ["wednesday"], "02:00", "04:00", "UTC"⟩]⟩

/-- Monday 2026-02-02 10:00 UTC in minutes since the epoch. -/
def c7Time : Int := 29500440

def rndZero : Nat → Nat := fun _ => 0

def c1Windows : MaintenanceWindowsConfig :=
  ⟨true, [⟨"weekend-night", ["saturday", "sunday"], "03:00", "05:00", "UTC"⟩]⟩

def c1Config : Config := ⟨300000000000, false, "string", 32, c1Windows⟩

def c1Secret : SecretObj :=
  ⟨[("password", "old-password-value".toList.map Char.toNat)],
   [(keyAutogenerate, "password"), (keyRotate, "1h"),
    (keyGeneratedAt, "2026-02-02T10:00:00Z")]⟩

/-- 2026-02-02T12:00:00Z, a Monday, in nanoseconds since the epoch. -/
def c1Now : Int := 1770033600000000000

def c2Secret : SecretObj :=
  ⟨[("a", [120])],
   [(keyAutogenerate, "a,b"), (keyRotateField "a", "1h"), (keyTypeField "a", "unknown"),
    (keyGeneratedAt, "2026-02-02T10:00:00Z")]⟩

def c3Secret : SecretObj :=
  ⟨[("a", [120])],
   [(keyAutogenerate, "a,b"), (keyRotateField "a", "10h"),
    (keyGeneratedAt, "2026-02-02T03:00:00Z")]⟩

def c4Secret : SecretObj :=
  ⟨[("a", [120])],
   [(keyAutogenerate, "a,a"), (keyRotate, "1m"),
    (keyGeneratedAt, "2026-02-02T10:00:00Z")]⟩

def c4WitnessSecret : SecretObj :=
  ⟨[("a", [120])],
   [(keyAutogenerate, "a"), (keyRotate, "1m"),
    (keyGeneratedAt, "2026-02-02T10:00:00Z")]⟩

def c9Secret : SecretObj :=
  ⟨[("a", [120])],
   [(keyAutogenerate, "a,b"), (keyRotate, "1h"),
    (keyGeneratedAt, "not-a-timestamp")]⟩

/-! # Theorems -/

theorem lookupA_setA_self {α : Type} (l : List (String × α)) (k : String) (v : α) :
    lookupA (setA l k v) k = some v := by
  induction l with
  | nil => simp [setA, lookupA]
  | cons p t ih =>
    obtain ⟨k', w⟩ := p
    by_cases h : k' = k <;> simp [setA, lookupA, h, ih]

theorem lookupA_setA_ne {α : Type} (l : List (String × α)) (k k' : String) (v : α)
    (h : k ≠ k') : lookupA (setA l k v) k' = lookupA l k' := by
  induction l with
  | nil => simp [setA, lookupA, h]
  | cons p t ih =>
    obtain ⟨k0, w⟩ := p
    by_cases h0 : k0 = k
    · subst h0
      simp [setA, lookupA, h]
    · simp [setA, lookupA, h0, ih]

/-! ## Structural lemmas about the reconcile loop -/

theorem genStep_cont (dT : String) (dL : Int) (anns : List (String × String))
    (rnd : Nat → Nat) (ch : String) (f : String) (nr : Bool) (st st' : LoopState)
    (h : genStep dT dL anns rnd ch f nr st = .cont st') :
    st'.nextRotation = st.nextRotation ∧ st'.events = st.events ∧
    ∀ g, g ≠ f → lookupA st'.data g = lookupA st.data g := by
  unfold genStep at h
  by_cases hc : (lookupA st.data f).isSome ∧ ¬ nr
  · rw [if_pos hc] at h
    cases h
    exact ⟨rfl, rfl, fun g _ => rfl⟩
  · rw [if_neg hc] at h
    cases hg : generateWithCharset rnd st.rndOff (getFieldType dT anns f)
        (getFieldLength dL anns f) ch with
    | error e => rw [hg] at h; cases h
    | ok p =>
      obtain ⟨value, off'⟩ := p
      rw [hg] at h
      cases h
      exact ⟨rfl, rfl, fun g hgf => lookupA_setA_ne st.data f g value hgf.symm⟩

theorem genStep_fail (dT : String) (dL : Int) (anns : List (String × String))
    (rnd : Nat → Nat) (ch : String) (f : String) (nr : Bool) (st : LoopState)
    (evs : List Event) (e : GenError)
    (h : genStep dT dL anns rnd ch f nr st = .fail evs e) :
    evs = st.events ++ [⟨true, reasonGenerationFailed, f⟩] := by
  unfold genStep at h
  by_cases hc : (lookupA st.data f).isSome ∧ ¬ nr
  · rw [if_pos hc] at h; cases h
  · rw [if_neg hc] at h
    cases hg : generateWithCharset rnd st.rndOff (getFieldType dT anns f)
        (getFieldLength dL anns f) ch with
    | error e' => rw [hg] at h; cases h; rfl
    | ok p =>
      obtain ⟨value, off'⟩ := p
      rw [hg] at h; cases h

theorem genStep_cont_preserves (dT : String) (dL : Int) (anns : List (String × String))
    (rnd : Nat → Nat) (ch : String) (f : String) (st st' : LoopState)
    (h : genStep dT dL anns rnd ch f false st = .cont st') :
    ∀ g v, lookupA st.data g = some v → lookupA st'.data g = some v := by
  unfold genStep at h
  by_cases hc : (lookupA st.data f).isSome ∧ ¬ (false : Bool)
  · rw [if_pos hc] at h; cases h; exact fun g v hv => hv
  · rw [if_neg hc] at h
    have hns : ¬ (lookupA st.data f).isSome := fun hs => hc ⟨hs, by simp⟩
    have hnone : lookupA st.data f = none := Option.not_isSome_iff_eq_none.mp hns
    cases hg : generateWithCharset rnd st.rndOff (getFieldType dT anns f)
        (getFieldLength dL anns f) ch with
    | error e => rw [hg] at h; cases h
    | ok p =>
      obtain ⟨value, off'⟩ := p
      rw [hg] at h
      cases h
      intro g v hv
      have hgf : f ≠ g := fun he => by rw [he, hv] at hnone; cases hnone
      rw [lookupA_setA_ne st.data f g value hgf]
      exact hv

theorem processField_cont_spec (minI : Int) (dT : String) (dL : Int)
    (anns : List (String × String)) (gat : Option Int) (now : Int)
    (rnd : Nat → Nat) (ch : String) (f : String) (st st' : LoopState)
    (h : processField minI dT dL anns gat now rnd ch f st = .cont st') :
    st'.nextRotation = minFold st.nextRotation (preCandidate minI anns gat now f).toList ∧
    ∀ g, g ≠ f → lookupA st'.data g = lookupA st.data g := by
  cases gat with
  | some g0 =>
    simp only [processField] at h
    simp only [preCandidate]
    by_cases h1 : getFieldRotationInterval anns f > 0
    · rw [if_pos h1] at h
      by_cases h2 : getFieldRotationInterval anns f < minI
      · rw [if_pos h2] at h
        cases h
        simp [h1, h2, minFold]
      · rw [if_neg h2] at h
        by_cases h3 : now - g0 ≥ getFieldRotationInterval anns f
        · rw [if_pos h3] at h
          have hx := genStep_cont dT dL anns rnd ch f true st st' h
          simp [h1, h2, h3, minFold, hx.1]
          exact hx.2.2
        · rw [if_neg h3] at h
          have hx := genStep_cont dT dL anns rnd ch f false _ st' h
          simp [h1, h2, h3, minFold, hx.1]
          exact hx.2.2
    · rw [if_neg h1] at h
      have hx := genStep_cont dT dL anns rnd ch f false st st' h
      simp [h1, minFold, hx.1]
      exact hx.2.2
  | none =>
    simp only [processField] at h
    simp only [preCandidate]
    by_cases h1 : getFieldRotationInterval anns f > 0
    · rw [if_pos h1] at h
      have hx := genStep_cont dT dL anns rnd ch f false _ st' h
      simp [h1, minFold, hx.1]
      exact hx.2.2
    · rw [if_neg h1] at h
      have hx := genStep_cont dT dL anns rnd ch f false st st' h
      simp [h1, minFold, hx.1]
      exact hx.2.2

theorem processField_fail_events (minI : Int) (dT : String) (dL : Int)
    (anns : List (String × String)) (gat : Option Int) (now : Int)
    (rnd : Nat → Nat) (ch : String) (f : String) (st : LoopState)
    (evs : List Event) (e : GenError)
    (h : processField minI dT dL anns gat now rnd ch f st = .fail evs e) :
    ∃ st1 : LoopState, evs = st1.events ++ [⟨true, reasonGenerationFailed, f⟩] := by
  cases gat with
  | some g0 =>
    simp only [processField] at h
    by_cases h1 : getFieldRotationInterval anns f > 0
    · rw [if_pos h1] at h
      by_cases h2 : getFieldRotationInterval anns f < minI
      · rw [if_pos h2] at h; cases h
      · rw [if_neg h2] at h
        by_cases h3 : now - g0 ≥ getFieldRotationInterval anns f
        · rw [if_pos h3] at h
          exact ⟨st, genStep_fail dT dL anns rnd ch f true st evs e h⟩
        · rw [if_neg h3] at h
          exact ⟨_, genStep_fail dT dL anns rnd ch f false _ evs e h⟩
    · rw [if_neg h1] at h
      exact ⟨st, genStep_fail dT dL anns rnd ch f false st evs e h⟩
  | none =>
    simp only [processField] at h
    by_cases h1 : getFieldRotationInterval anns f > 0
    · rw [if_pos h1] at h
      exact ⟨_, genStep_fail dT dL anns rnd ch f false _ evs e h⟩
    · rw [if_neg h1] at h
      exact ⟨st, genStep_fail dT dL anns rnd ch f false st evs e h⟩

theorem minFold_append (acc : Option Int) (l1 l2 : List Int) :
    minFold acc (l1 ++ l2) = minFold (minFold acc l1) l2 := by
  simp [minFold, List.foldl_append]

theorem processFields_ok_nextRotation (minI : Int) (dT : String) (dL : Int)
    (anns : List (String × String)) (gat : Option Int) (now : Int)
    (rnd : Nat → Nat) (ch : String) :
    ∀ (l : List String) (st st' : LoopState),
      processFields minI dT dL anns gat now rnd ch l st = .ok st' →
      st'.nextRotation =
        minFold st.nextRotation (l.filterMap (preCandidate minI anns gat now)) := by
  intro l
  induction l with
  | nil =>
    intro st st' h
    cases h
    simp [minFold]
  | cons f rest ih =>
    intro st st' h
    rw [processFields] at h
    cases hf : processField minI dT dL anns gat now rnd ch f st with
    | fail evs e => rw [hf] at h; cases h
    | cont st1 =>
      rw [hf] at h
      have hx := (processField_cont_spec minI dT dL anns gat now rnd ch f st st1 hf).1
      have hy := ih st1 st' h
      rw [hy, hx, List.filterMap_cons]
      cases hp : preCandidate minI anns gat now f with
      | none => simp [minFold]
      | some c => simp [minFold]

theorem processFields_error_shape (minI : Int) (dT : String) (dL : Int)
    (anns : List (String × String)) (gat : Option Int) (now : Int)
    (rnd : Nat → Nat) (ch : String) :
    ∀ (l : List String) (st : LoopState) (evs : List Event) (e : GenError),
      processFields minI dT dL anns gat now rnd ch l st = .error (evs, e) →
      ∃ f pre, evs = pre ++ [⟨true, reasonGenerationFailed, f⟩] := by
  intro l
  induction l with
  | nil => intro st evs e h; cases h
  | cons f rest ih =>
    intro st evs e h
    rw [processFields] at h
    cases hf : processField minI dT dL anns gat now rnd ch f st with
    | fail evs' e' =>
      rw [hf] at h
      cases h
      obtain ⟨st1, hs⟩ := processField_fail_events minI dT dL anns gat now rnd ch f st _ _ hf
      exact ⟨f, st1.events, hs⟩
    | cont st1 =>
      rw [hf] at h
      exact ih st1 evs e h

theorem processFields_preserves_present (minI : Int) (dT : String) (dL : Int)
    (anns : List (String × String)) (now : Int) (rnd : Nat → Nat) (ch : String) :
    ∀ (l : List String) (st st' : LoopState),
      processFields minI dT dL anns none now rnd ch l st = .ok st' →
      ∀ g v, lookupA st.data g = some v → lookupA st'.data g = some v := by
  intro l
  induction l with
  | nil => intro st st' h; cases h; exact fun g v hv => hv
  | cons f rest ih =>
    intro st st' h
    rw [processFields] at h
    cases hf : processField minI dT dL anns none now rnd ch f st with
    | fail evs e => rw [hf] at h; cases h
    | cont st1 =>
      rw [hf] at h
      intro g v hv
      refine ih st1 st' h g v ?_
      simp only [processField] at hf
      by_cases h1 : getFieldRotationInterval anns f > 0
      · rw [if_pos h1] at hf
        exact genStep_cont_preserves dT dL anns rnd ch f _ st1 hf g v hv
      · rw [if_neg h1] at hf
        exact genStep_cont_preserves dT dL anns rnd ch f st st1 hf g v hv

theorem processField_cont_belowMin (minI : Int) (dT : String) (dL : Int)
    (anns : List (String × String)) (g0 : Int) (now : Int)
    (rnd : Nat → Nat) (ch : String) (f : String)
    (hpos : getFieldRotationInterval anns f > 0)
    (hmin : getFieldRotationInterval anns f < minI)
    (f' : String) (st st' : LoopState)
    (h : processField minI dT dL anns (some g0) now rnd ch f' st = .cont st') :
    warnCountRotation st'.events f =
      warnCountRotation st.events f + (if f' = f then 1 else 0) ∧
    lookupA st'.data f = lookupA st.data f := by
  by_cases hf' : f' = f
  · subst hf'
    simp only [processField] at h
    rw [if_pos hpos, if_pos hmin] at h
    cases h
    constructor
    · simp [warnCountRotation, List.countP_append, List.countP_cons, reasonRotationFailed]
    · rfl
  · simp only [processField] at h
    by_cases h1 : getFieldRotationInterval anns f' > 0
    · rw [if_pos h1] at h
      by_cases h2 : getFieldRotationInterval anns f' < minI
      · rw [if_pos h2] at h
        cases h
        constructor
        · have hbf : (f' == f) = false := by
            exact beq_eq_false_iff_ne.mpr hf'
          simp [warnCountRotation, List.countP_append, List.countP_cons, hbf, hf']
        · rfl
      · rw [if_neg h2] at h
        by_cases h3 : now - g0 ≥ getFieldRotationInterval anns f'
        · rw [if_pos h3] at h
          have hx := genStep_cont dT dL anns rnd ch f' true st st' h
          exact ⟨by simp [hx.2.1, hf'], hx.2.2 f (fun he => hf' he.symm)⟩
        · rw [if_neg h3] at h
          have hx := genStep_cont dT dL anns rnd ch f' false _ st' h
          exact ⟨by simp [hx.2.1, hf'], hx.2.2 f (fun he => hf' he.symm)⟩
    · rw [if_neg h1] at h
      have hx := genStep_cont dT dL anns rnd ch f' false st st' h
      exact ⟨by simp [hx.2.1, hf'], hx.2.2 f (fun he => hf' he.symm)⟩

theorem processFields_ok_belowMin (minI : Int) (dT : String) (dL : Int)
    (anns : List (String × String)) (g0 : Int) (now : Int)
    (rnd : Nat → Nat) (ch : String) (f : String)
    (hpos : getFieldRotationInterval anns f > 0)
    (hmin : getFieldRotationInterval anns f < minI) :
    ∀ (l : List String) (st st' : LoopState),
      processFields minI dT dL anns (some g0) now rnd ch l st = .ok st' →
      warnCountRotation st'.events f = warnCountRotation st.events f + l.count f ∧
      lookupA st'.data f = lookupA st.data f := by
  intro l
  induction l with
  | nil =>
    intro st st' h
    cases h
    simp
  | cons f' rest ih =>
    intro st st' h
    rw [processFields] at h
    cases hf : processField minI dT dL anns (some g0) now rnd ch f' st with
    | fail evs e => rw [hf] at h; cases h
    | cont st1 =>
      rw [hf] at h
      have hx := processField_cont_belowMin minI dT dL anns g0 now rnd ch f hpos hmin f' st st1 hf
      have hy := ih st1 st' h
      constructor
      · rw [hy.1, hx.1, List.count_cons]
        by_cases hff : f' = f
        · simp [hff, beq_iff_eq]
          omega
        · have : (f == f') = false := beq_eq_false_iff_ne.mpr (fun he => hff he.symm)
          simp [hff, this]
      · rw [hy.2, hx.2]

theorem foldPost_eq_minFold (anns' : List (String × String)) :
    ∀ (l : List String) (acc : Option Int),
      l.foldl (fun acc f =>
          let i := getFieldRotationInterval anns' f
          if i > 0 then minFoldStep acc i else acc) acc
        = minFold acc (l.filterMap (postCandidate anns')) := by
  intro l
  induction l with
  | nil => intro acc; simp [minFold]
  | cons f rest ih =>
    intro acc
    rw [List.foldl_cons, List.filterMap_cons]
    by_cases h1 : getFieldRotationInterval anns' f > 0
    · simp only [postCandidate, h1, if_pos]
      rw [ih]
      simp [minFold, h1]
    · simp only [postCandidate, h1, if_neg]
      rw [ih]
      simp [minFold, postCandidate, h1]

theorem keyGeneratedAt_ne_keyRotate : keyGeneratedAt ≠ keyRotate := by decide

theorem keyGeneratedAt_ne_keyRotateField (f : String) :
    keyGeneratedAt ≠ keyRotateField f := by
  intro h
  have h1 := congrArg String.data h
  rw [keyGeneratedAt, keyRotateField, keyBase] at h1
  rw [String.data_append, String.data_append, String.data_append] at h1
  rw [List.append_assoc] at h1
  have h2 := List.append_cancel_left h1
  have h3 := congrArg List.head? h2
  have h4 : ("generated-at".data).head? = some 'g' := by decide
  have h5 : ("rotate.".data ++ f.data).head? = some 'r' := by
    have hr : "rotate.".data = 'r' :: "otate.".data := by decide
    rw [hr]
    rfl
  rw [h4, h5] at h3
  cases h3

theorem getFieldRotationInterval_set_generatedAt (anns : List (String × String))
    (v : String) (f : String) :
    getFieldRotationInterval (setA anns keyGeneratedAt v) f =
      getFieldRotationInterval anns f := by
  unfold getFieldRotationInterval
  rw [lookupA_setA_ne anns keyGeneratedAt (keyRotateField f) v (keyGeneratedAt_ne_keyRotateField f),
      lookupA_setA_ne anns keyGeneratedAt keyRotate v keyGeneratedAt_ne_keyRotate]

theorem postCandidate_set_generatedAt (anns : List (String × String)) (v : String) :
    postCandidate (setA anns keyGeneratedAt v) = postCandidate anns := by
  funext f
  unfold postCandidate
  rw [getFieldRotationInterval_set_generatedAt]

/-- The four possible shapes of a reconcile outcome: no-op (no fields to
generate), abort on a generation error, write after at least one change,
or a changeless pass. -/
theorem reconcile_shape (cfg : Config) (secret : SecretObj) (now : Int)
    (rnd : Nat → Nat) (ch : String) :
    (reconcileFields secret = [] ∧
      reconcile cfg secret now rnd ch = ⟨secret, none, [], false, none⟩) ∨
    (∃ evs e,
      processFields cfg.minInterval cfg.defaultType cfg.defaultLength secret.annotations
          (getGeneratedAtTime secret.annotations) now rnd ch (reconcileFields secret)
          ⟨secret.data, false, false, none, [], 0⟩ = .error (evs, e) ∧
      reconcile cfg secret now rnd ch = ⟨secret, none, evs, false, some e⟩) ∨
    (∃ st,
      processFields cfg.minInterval cfg.defaultType cfg.defaultLength secret.annotations
          (getGeneratedAtTime secret.annotations) now rnd ch (reconcileFields secret)
          ⟨secret.data, false, false, none, [], 0⟩ = .ok st ∧
      ((st.changed = true ∧
        reconcile cfg secret now rnd ch =
          ⟨⟨st.data, setA secret.annotations keyGeneratedAt (formatRFC3339 now)⟩,
            (reconcileFields secret).foldl
              (fun acc f =>
                let i := getFieldRotationInterval
                  (setA secret.annotations keyGeneratedAt (formatRFC3339 now)) f
                if i > 0 then minFoldStep acc i else acc)
              st.nextRotation,
            st.events ++
              (if st.rotated then
                (if cfg.createEvents then [⟨false, reasonRotationSucceeded, ""⟩] else [])
              else [⟨false, reasonGenerationSucceeded, ""⟩]),
            true, none⟩) ∨
       (st.changed = false ∧
        reconcile cfg secret now rnd ch = ⟨secret, st.nextRotation, st.events, false, none⟩))) := by
  cases hlk : lookupA secret.annotations keyAutogenerate with
  | none =>
    left
    constructor
    · unfold reconcileFields
      rw [hlk]
    · unfold reconcile
      rw [hlk]
  | some v =>
    have hrf : reconcileFields secret = parseFields v := by
      unfold reconcileFields
      rw [hlk]
    by_cases hv : v = ""
    · left
      constructor
      · rw [hrf, hv]
        rfl
      · unfold reconcile
        rw [hlk]
        simp [hv]
    · by_cases hpf : parseFields v = []
      · left
        constructor
        · rw [hrf, hpf]
        · unfold reconcile
          rw [hlk]
          simp [hv, hpf]
      · rw [hrf]
        cases hp : processFields cfg.minInterval cfg.defaultType cfg.defaultLength
            secret.annotations (getGeneratedAtTime secret.annotations) now rnd ch
            (parseFields v) ⟨secret.data, false, false, none, [], 0⟩ with
        | error pr =>
          obtain ⟨evs, e⟩ := pr
          right; left
          refine ⟨evs, e, rfl, ?_⟩
          unfold reconcile
          rw [hlk]
          dsimp only
          rw [if_neg hv, if_neg hpf, hp]
        | ok st =>
          right; right
          refine ⟨st, rfl, ?_⟩
          cases hch : st.changed with
          | true =>
            left
            refine ⟨rfl, ?_⟩
            unfold reconcile
            rw [hlk]
            dsimp only
            rw [if_neg hv, if_neg hpf, hp]
            dsimp only
            rw [hch]
            simp
          | false =>
            right
            refine ⟨rfl, ?_⟩
            unfold reconcile
            rw [hlk]
            dsimp only
            rw [if_neg hv, if_neg hpf, hp]
            dsimp only
            rw [hch]
            simp

/-! ## C5: the length-resolution cascade -/

/-- C5: for every annotation map and field name, the effective length is
the three-level cascade: the field-specific length annotation if it parses
to a positive integer, otherwise the object-wide length annotation if it
parses to a positive integer, otherwise the global default; invalid or
non-positive values at one level fall through to the next level and no
error is produced (the function is total). -/
theorem getFieldLength_is_cascade (defL : Int) (anns : List (String × String)) (f : String) :
    getFieldLength defL anns f = lengthCascade defL anns f := by
  unfold getFieldLength getLengthAnnotation lengthCascade posLengthAnn
  cases h1 : lookupA anns (keyLengthField f) with
  | none =>
    cases h2 : lookupA anns keyLength with
    | none => rfl
    | some v =>
      by_cases hv : v = ""
      · simp [hv]
      · cases hn : goAtoi v with
        | none => simp [hv, hn]
        | some n =>
          by_cases hp : n > 0
          · simp [hv, hn, hp]
          · simp [hv, hn, hp, not_lt.mp hp]
  | some v =>
    by_cases hv : v = ""
    · simp only [hv]
      cases h2 : lookupA anns keyLength with
      | none => simp
      | some w =>
        by_cases hw : w = ""
        · simp [hw]
        · cases hn : goAtoi w with
          | none => simp [hw, hn]
          | some n =>
            by_cases hp : n > 0
            · simp [hw, hn, hp]
            · simp [hw, hn, hp, not_lt.mp hp]
    · cases hn : goAtoi v with
      | none =>
        simp only [hv, hn]
        cases h2 : lookupA anns keyLength with
        | none => simp
        | some w =>
          by_cases hw : w = ""
          · simp [hw]
          · cases hm : goAtoi w with
            | none => simp [hw, hm]
            | some m =>
              by_cases hp : m > 0
              · simp [hw, hm, hp]
              · simp [hw, hm, hp, not_lt.mp hp]
      | some n =>
        by_cases hp : n > 0
        · simp [hv, hn, hp]
        · simp only [hv, hn, hp, not_lt.mp hp]
          cases h2 : lookupA anns keyLength with
          | none => simp [hp]
          | some w =>
            by_cases hw : w = ""
            · simp [hw, hp]
            · cases hm : goAtoi w with
              | none => simp [hw, hm, hp]
              | some m =>
                by_cases hq : m > 0
                · simp [hw, hm, hp, hq]
                · simp [hw, hm, hp, hq, not_lt.mp hq]

/-! ## C8: keypair types are rejected by the generic entry points -/

/-- C8: for every keypair generation type (`rsa`, `ecdsa`, `ed25519`) and
every length, charset and random stream, the generic entry points
`Generate` and `GenerateWithCharset` return an error immediately and never
produce a value. -/
theorem generic_entry_rejects_keypairs (rnd : Nat → Nat) (off : Nat) (length : Int)
    (charset defaultCharset : String) :
    generateWithCharset rnd off configTypeRSA length charset = .error .keypairViaGeneric ∧
    generateWithCharset rnd off configTypeECDSA length charset = .error .keypairViaGeneric ∧
    generateWithCharset rnd off configTypeEd25519 length charset = .error .keypairViaGeneric ∧
    generate defaultCharset rnd off configTypeRSA length = .error .keypairViaGeneric ∧
    generate defaultCharset rnd off configTypeECDSA length = .error .keypairViaGeneric ∧
    generate defaultCharset rnd off configTypeEd25519 length = .error .keypairViaGeneric := by
  refine ⟨rfl, rfl, rfl, rfl, rfl, rfl⟩

/-! ## C10: a missing or effectively empty autogenerate annotation is a
complete no-op -/

/-- C10: if the autogenerate annotation is absent, empty, or contains only
empty or whitespace entries after splitting on commas, one reconciliation
is a complete no-op: the secret (data and annotations) is returned
unchanged, no write happens, no events are emitted and no requeue delay is
requested. -/
theorem reconcile_noop_without_fields (cfg : Config) (secret : SecretObj) (now : Int)
    (rnd : Nat → Nat) (charset : String)
    (h : ∀ v, lookupA secret.annotations keyAutogenerate = some v → parseFields v = []) :
    reconcile cfg secret now rnd charset = ⟨secret, none, [], false, none⟩ := by
  unfold reconcile
  cases hlk : lookupA secret.annotations keyAutogenerate with
  | none => rfl
  | some v =>
    have hv := h v hlk
    by_cases hv0 : v = ""
    · simp [hv0]
    · simp [hv0, hv]

/-- Witness for C10 at a concrete input: the annotation holds only commas
and whitespace. -/
theorem reconcile_noop_without_fields_witness :
    reconcile ⟨300000000000, false, "string", 32, ⟨false, []⟩⟩
        ⟨[("x", [1])], [(keyAutogenerate, " , ,")]⟩ 0 (fun _ => 0) alphanumericCharset =
      ⟨⟨[("x", [1])], [(keyAutogenerate, " , ,")]⟩, none, [], false, none⟩ :=
  reconcile_noop_without_fields _ _ _ _ _ (by decide)

/-! ## C1: the controller never consults the maintenance windows -/

/-- C1 is violated by the code: at the failing input of the repository's
own integration test `TestMaintenanceWindowRotationDeferred` (a field with
an existing value, rotation interval 1h at least the 5m minimum, generated
2h ago so the rotation is due, evaluated Monday 12:00 UTC which lies
outside the single enabled Saturday/Sunday 03:00-05:00 UTC window),
`Reconcile` rotates the value and overwrites `generated-at` anyway: the
reconcile loop never consults `IsInAnyWindow`, so the due rotation is not
deferred.  The first conjuncts pin the scenario; the last two show the
mutation. -/
theorem rotation_ignores_maintenance_window :
    getFieldRotationInterval c1Secret.annotations "password" = 3600000000000 ∧
    getGeneratedAtTime c1Secret.annotations = some 1770026400000000000 ∧
    c1Windows.enabled = true ∧
    IsInAnyWindow [("UTC", 0)] c1Windows (c1Now / 60000000000) = false ∧
    lookupA (reconcile c1Config c1Secret c1Now rndZero alphanumericCharset).secret.data
        "password" = some (List.replicate 32 97) ∧
    lookupA (reconcile c1Config c1Secret c1Now rndZero alphanumericCharset).secret.annotations
        keyGeneratedAt = some "2026-02-02T12:00:00Z" ∧
    (reconcile c1Config c1Secret c1Now rndZero alphanumericCharset).wrote = true := by
  decide

/-! ## C2: a generation failure during a due rotation aborts the whole
cycle, not only that field -/

/-- Counterexample to C2: field `a` has a value and a due rotation whose
generation fails (annotation type `unknown`); field `b` has no value and
would be generated.  The claim says the failure aborts only field `a` and
`b` is still evaluated in the same cycle; the code instead returns the
error immediately, so `b` is never generated and nothing is written. -/
theorem rotation_failure_aborts_whole_cycle_cex :
    (reconcile c1Config c2Secret c1Now rndZero alphanumericCharset).err =
      some (.unknownType "unknown") ∧
    lookupA (reconcile c1Config c2Secret c1Now rndZero alphanumericCharset).secret.data "b" =
      none ∧
    (reconcile c1Config c2Secret c1Now rndZero alphanumericCharset).wrote = false ∧
    (reconcile c1Config c2Secret c1Now rndZero alphanumericCharset).secret = c2Secret := by
  decide

/-- C2 as amended: when value generation fails for a field — first-time
generation and due rotation alike — the whole reconciliation cycle aborts:
no write happens, the persisted secret is byte-for-byte the input one, no
requeue is requested, and the event trail ends with the GenerationFailed
warning for the failing field; fields after the failing one are not
evaluated. -/
theorem generation_error_aborts_cycle (cfg : Config) (secret : SecretObj) (now : Int)
    (rnd : Nat → Nat) (charset : String) (e : GenError)
    (h : (reconcile cfg secret now rnd charset).err = some e) :
    (reconcile cfg secret now rnd charset).wrote = false ∧
    (reconcile cfg secret now rnd charset).secret = secret ∧
    (reconcile cfg secret now rnd charset).requeueAfter = none ∧
    ∃ f pre, (reconcile cfg secret now rnd charset).events =
      pre ++ [⟨true, reasonGenerationFailed, f⟩] := by
  simp only [reconcile] at h ⊢
  cases hlk : lookupA secret.annotations keyAutogenerate with
  | none =>
    rw [hlk] at h
    simp at h
  | some v =>
    rw [hlk] at h
    dsimp only at h ⊢
    by_cases hv : v = ""
    · rw [if_pos hv] at h
      simp at h
    · rw [if_neg hv] at h ⊢
      by_cases hpf : parseFields v = []
      · rw [if_pos hpf] at h
        simp at h
      · rw [if_neg hpf] at h ⊢
        cases hp : processFields cfg.minInterval cfg.defaultType cfg.defaultLength
            secret.annotations (getGeneratedAtTime secret.annotations) now rnd charset
            (parseFields v) ⟨secret.data, false, false, none, [], 0⟩ with
        | error pr =>
          obtain ⟨evs, e'⟩ := pr
          dsimp only at h ⊢
          refine ⟨rfl, rfl, rfl, ?_⟩
          exact processFields_error_shape cfg.minInterval cfg.defaultType cfg.defaultLength
            secret.annotations (getGeneratedAtTime secret.annotations) now rnd charset
            (parseFields v) _ evs e' hp
        | ok st =>
          rw [hp] at h
          dsimp only at h
          cases hch : st.changed with
          | true => rw [hch] at h; simp at h
          | false => rw [hch] at h; simp at h

/-- Witness for the amended C2 at the concrete counterexample input. -/
theorem generation_error_aborts_cycle_witness :
    (reconcile c1Config c2Secret c1Now rndZero alphanumericCharset).wrote = false ∧
    (reconcile c1Config c2Secret c1Now rndZero alphanumericCharset).secret = c2Secret ∧
    (reconcile c1Config c2Secret c1Now rndZero alphanumericCharset).requeueAfter = none ∧
    ∃ f pre, (reconcile c1Config c2Secret c1Now rndZero alphanumericCharset).events =
      pre ++ [⟨true, reasonGenerationFailed, f⟩] :=
  generation_error_aborts_cycle c1Config c2Secret c1Now rndZero alphanumericCharset
    (.unknownType "unknown") (by decide)

/-! ## C3: the post-write recomputation keeps the stale pre-write
candidates -/

/-- Counterexample to C3: field `a` has a value, a 10h interval and was
generated 9h ago, so its pre-write candidate is 1h; field `b` has no value
and is generated this cycle, so a write happens and `generated-at` is
refreshed.  Under the claim the recomputation would use the fresh
timestamp as the baseline, giving a delay of 10h for `a`; the code keeps
the stale 1h candidate in the minimum and requeues after 1h. -/
theorem requeue_keeps_stale_candidate_cex :
    (reconcile c1Config c3Secret c1Now rndZero alphanumericCharset).wrote = true ∧
    (reconcile c1Config c3Secret c1Now rndZero alphanumericCharset).requeueAfter =
      some 3600000000000 ∧
    (3600000000000 : Int) ≠ 36000000000000 := by
  decide

/-- C3 as amended: for a cycle that returns no error, the requeue delay is
the minimum over the per-field candidates: before any write, a field with
a positive interval, an existing timestamp, interval at least the minimum
and not yet due contributes `interval - (now - generatedAt)`, and a field
with a positive interval but no timestamp contributes the full interval;
when a write happened, the full intervals of every interval-carrying field
are folded in as additional candidates, but the pre-write candidates are
kept, so the reported delay can be earlier than the freshly written
baseline requires; with no candidates at all, no requeue is requested. -/
theorem requeue_is_min_of_candidates (cfg : Config) (secret : SecretObj) (now : Int)
    (rnd : Nat → Nat) (charset : String)
    (h : (reconcile cfg secret now rnd charset).err = none) :
    ((reconcile cfg secret now rnd charset).wrote = true →
      (reconcile cfg secret now rnd charset).requeueAfter =
        minFold none
          ((reconcileFields secret).filterMap
              (preCandidate cfg.minInterval secret.annotations
                (getGeneratedAtTime secret.annotations) now) ++
            (reconcileFields secret).filterMap (postCandidate secret.annotations))) ∧
    ((reconcile cfg secret now rnd charset).wrote = false →
      (reconcile cfg secret now rnd charset).requeueAfter =
        minFold none
          ((reconcileFields secret).filterMap
            (preCandidate cfg.minInterval secret.annotations
              (getGeneratedAtTime secret.annotations) now))) := by
  rcases reconcile_shape cfg secret now rnd charset with ⟨hrf, heq⟩ |
    ⟨evs, e, hp, heq⟩ | ⟨st, hp, hcase⟩
  · rw [heq, hrf]
    constructor
    · intro hw
      simp at hw
    · intro _
      simp [minFold]
  · rw [heq] at h
    simp at h
  · have hnext := processFields_ok_nextRotation cfg.minInterval cfg.defaultType
      cfg.defaultLength secret.annotations (getGeneratedAtTime secret.annotations) now
      rnd charset (reconcileFields secret) ⟨secret.data, false, false, none, [], 0⟩ st hp
    dsimp only at hnext
    rcases hcase with ⟨hch, heq⟩ | ⟨hch, heq⟩
    · rw [heq]
      constructor
      · intro _
        dsimp only
        rw [foldPost_eq_minFold, postCandidate_set_generatedAt]
        rw [hnext, ← minFold_append]
      · intro hw
        simp at hw
    · rw [heq]
      constructor
      · intro hw
        simp at hw
      · intro _
        exact hnext

/-- Witness for the amended C3 at the concrete counterexample input: the
pre-write candidate 1h for field `a` and the post-write candidates 10h
(for `a`) yield a 1h requeue. -/
theorem requeue_is_min_of_candidates_witness :
    (reconcile c1Config c3Secret c1Now rndZero alphanumericCharset).wrote = true ∧
    (reconcile c1Config c3Secret c1Now rndZero alphanumericCharset).requeueAfter =
      minFold none
        ((reconcileFields c3Secret).filterMap
            (preCandidate c1Config.minInterval c3Secret.annotations
              (getGeneratedAtTime c3Secret.annotations) c1Now) ++
          (reconcileFields c3Secret).filterMap (postCandidate c3Secret.annotations)) :=
  ⟨by decide,
   (requeue_is_min_of_candidates c1Config c3Secret c1Now rndZero alphanumericCharset
      (by decide)).1 (by decide)⟩

/-! ## C4: one warning per listed occurrence, not per field -/

/-- Counterexample to C4: the field `a` is listed twice in the
autogenerate annotation and its 1m interval is below the 5m minimum while
`generated-at` exists, so the loop raises the below-minimum warning once
per listed occurrence — two warnings for the same field in one cycle, not
exactly one. -/
theorem below_min_warning_per_occurrence_cex :
    getFieldRotationInterval c4Secret.annotations "a" = 60000000000 ∧
    c1Config.minInterval = 300000000000 ∧
    warnCountRotation (reconcile c1Config c4Secret c1Now rndZero alphanumericCharset).events
      "a" = 2 := by
  decide

/-- C4 as amended: for every field whose resolved rotation interval is
positive but strictly below the configured minimum and whose generated-at
timestamp exists, the rotation is refused: the field is never rotated (its
data entry is byte-for-byte unchanged), the outcome does not depend on the
maintenance-window configuration at all, and in a cycle that is not
aborted by a generation failure the below-minimum warning is raised exactly
once per occurrence of the field in the autogenerate list, while
processing continues with the remaining fields. -/
theorem below_min_interval_refused (cfg : Config) (secret : SecretObj) (now : Int)
    (rnd : Nat → Nat) (charset : String) (f : String) (g0 : Int)
    (h1 : getFieldRotationInterval secret.annotations f > 0)
    (h2 : getFieldRotationInterval secret.annotations f < cfg.minInterval)
    (h3 : getGeneratedAtTime secret.annotations = some g0) :
    ((reconcile cfg secret now rnd charset).err = none →
      warnCountRotation (reconcile cfg secret now rnd charset).events f =
        (reconcileFields secret).count f) ∧
    lookupA (reconcile cfg secret now rnd charset).secret.data f =
      lookupA secret.data f ∧
    (∀ mws, reconcile { cfg with maintenanceWindows := mws } secret now rnd charset =
      reconcile cfg secret now rnd charset) := by
  have hwin : ∀ mws, reconcile { cfg with maintenanceWindows := mws } secret now rnd charset =
      reconcile cfg secret now rnd charset := fun mws => rfl
  rcases reconcile_shape cfg secret now rnd charset with ⟨hrf, heq⟩ |
    ⟨evs, e, hp, heq⟩ | ⟨st, hp, hcase⟩
  · rw [heq, hrf]
    exact ⟨fun _ => by simp [warnCountRotation], rfl, fun mws => (hwin mws).trans heq⟩
  · rw [heq]
    exact ⟨fun hc => by simp at hc, rfl, fun mws => (hwin mws).trans heq⟩
  · rw [h3] at hp
    have hcnt := processFields_ok_belowMin cfg.minInterval cfg.defaultType cfg.defaultLength
      secret.annotations g0 now rnd charset f h1 h2 (reconcileFields secret)
      ⟨secret.data, false, false, none, [], 0⟩ st hp
    dsimp only at hcnt
    rcases hcase with ⟨hch, heq⟩ | ⟨hch, heq⟩
    · rw [heq]
      refine ⟨fun _ => ?_, ?_, fun mws => (hwin mws).trans heq⟩
      · dsimp only
        have htail : ∀ tail, tail = (if st.rotated then
              (if cfg.createEvents then [(⟨false, reasonRotationSucceeded, ""⟩ : Event)] else [])
            else [(⟨false, reasonGenerationSucceeded, ""⟩ : Event)]) →
            warnCountRotation tail f = 0 := by
          intro tail htl
          cases hr : st.rotated with
          | true =>
            cases hce : cfg.createEvents with
            | true => rw [htl, hr, hce]; simp [warnCountRotation]
            | false => rw [htl, hr, hce]; simp [warnCountRotation]
          | false => rw [htl, hr]; simp [warnCountRotation]
        have happ : warnCountRotation (st.events ++
            (if st.rotated then
              (if cfg.createEvents then [(⟨false, reasonRotationSucceeded, ""⟩ : Event)] else [])
            else [(⟨false, reasonGenerationSucceeded, ""⟩ : Event)])) f =
            warnCountRotation st.events f := by
          rw [warnCountRotation, List.countP_append]
          rw [← warnCountRotation, ← warnCountRotation, htail _ rfl]
          omega
        rw [happ, hcnt.1]
        simp [warnCountRotation]
      · dsimp only
        exact hcnt.2
    · rw [heq]
      refine ⟨fun _ => ?_, rfl, fun mws => (hwin mws).trans heq⟩
      rw [hcnt.1]
      simp [warnCountRotation]

/-- Witness for the amended C4: a single listed field `a` with a 1m
interval against a 5m minimum gets exactly one warning, keeps its value,
and the outcome is window-independent. -/
theorem below_min_interval_refused_witness :
    ((reconcile c1Config c4WitnessSecret c1Now rndZero alphanumericCharset).err = none →
      warnCountRotation
        (reconcile c1Config c4WitnessSecret c1Now rndZero alphanumericCharset).events "a" =
        (reconcileFields c4WitnessSecret).count "a") ∧
    lookupA (reconcile c1Config c4WitnessSecret c1Now rndZero alphanumericCharset).secret.data
        "a" = lookupA c4WitnessSecret.data "a" ∧
    (∀ mws, reconcile { c1Config with maintenanceWindows := mws } c4WitnessSecret c1Now
        rndZero alphanumericCharset =
      reconcile c1Config c4WitnessSecret c1Now rndZero alphanumericCharset) :=
  below_min_interval_refused c1Config c4WitnessSecret c1Now rndZero alphanumericCharset
    "a" 1770026400000000000 (by decide) (by decide) (by decide)

/-! ## C9: a missing or invalid generated-at timestamp means never
generated -/

/-- C9: if the generated-at annotation is absent or not valid RFC 3339,
the object is treated as never generated: every field that already has a
value keeps it byte-for-byte (no rotation-due comparison can fire), and a
cycle that performs a write sets generated-at to the formatted current
time. -/
theorem invalid_generated_at_no_rotation (cfg : Config) (secret : SecretObj) (now : Int)
    (rnd : Nat → Nat) (charset : String)
    (h : getGeneratedAtTime secret.annotations = none) :
    (∀ f v, lookupA secret.data f = some v →
      lookupA (reconcile cfg secret now rnd charset).secret.data f = some v) ∧
    ((reconcile cfg secret now rnd charset).wrote = true →
      lookupA (reconcile cfg secret now rnd charset).secret.annotations keyGeneratedAt =
        some (formatRFC3339 now)) := by
  rcases reconcile_shape cfg secret now rnd charset with ⟨hrf, heq⟩ |
    ⟨evs, e, hp, heq⟩ | ⟨st, hp, hcase⟩
  · rw [heq]
    exact ⟨fun f v hv => hv, fun hw => by simp at hw⟩
  · rw [heq]
    exact ⟨fun f v hv => hv, fun hw => by simp at hw⟩
  · rw [h] at hp
    have hpres := processFields_preserves_present cfg.minInterval cfg.defaultType
      cfg.defaultLength secret.annotations now rnd charset (reconcileFields secret)
      ⟨secret.data, false, false, none, [], 0⟩ st hp
    dsimp only at hpres
    rcases hcase with ⟨hch, heq⟩ | ⟨hch, heq⟩
    · rw [heq]
      refine ⟨fun f v hv => hpres f v hv, fun _ => ?_⟩
      dsimp only
      exact lookupA_setA_self secret.annotations keyGeneratedAt (formatRFC3339 now)
    · rw [heq]
      exact ⟨fun f v hv => hv, fun hw => by simp at hw⟩

/-- Witness for C9: `generated-at` is `not-a-timestamp`; the field `a`
with value and a 1h interval keeps its value, and the write performed for
the missing field `b` sets a fresh formatted timestamp. -/
theorem invalid_generated_at_no_rotation_witness :
    lookupA (reconcile c1Config c9Secret c1Now rndZero alphanumericCharset).secret.data "a" =
      some [120] ∧
    lookupA (reconcile c1Config c9Secret c1Now rndZero alphanumericCharset).secret.annotations
      keyGeneratedAt = some (formatRFC3339 c1Now) := by
  have h := invalid_generated_at_no_rotation c1Config c9Secret c1Now rndZero
    alphanumericCharset (by decide)
  exact ⟨h.1 "a" [120] (by decide), h.2 (by decide)⟩

/-! ## C6: window membership semantics -/

theorem anyDay_iff (days : List String) (c : Int) :
    (days.any fun d =>
      match parseDay d with
      | some wd => wd == c
      | none => false) = true ↔ c ∈ days.filterMap parseDay := by
  rw [List.any_eq_true]
  constructor
  · rintro ⟨d, hd, hm⟩
    cases hpd : parseDay d with
    | none => rw [hpd] at hm; cases hm
    | some wd =>
      rw [hpd] at hm
      have hwc : wd = c := by simpa using hm
      exact List.mem_filterMap.mpr ⟨d, hd, by rw [hpd, hwc]⟩
  · intro hc
    obtain ⟨d, hd, hpd⟩ := List.mem_filterMap.mp hc
    exact ⟨d, hd, by rw [hpd]; simp⟩

/-- C6: for every time `t` and every validated window `W` (in a zone the
database resolves to offset `off`), `IsInWindow W t` is true exactly when
the local weekday of `t` is among the parsed days of `W` and the local
minute-of-day satisfies `start ≤ minuteOfDay t < end`: the start boundary
is inclusive and the end boundary is exclusive. -/
theorem isInWindow_iff (db : ZoneDB) (w : MaintenanceWindow) (t off : Int)
    (hval : validateWindow db w = true)
    (hloc : loadLocation db w.timezone = some off) :
    IsInWindow db w t = true ↔
      (weekdayAt off t ∈ windowWeekdays w ∧
       startMinutesOf w ≤ minuteOfDayAt off t ∧
       minuteOfDayAt off t < endMinutesOf w) := by
  unfold IsInWindow
  rw [hloc]
  dsimp only
  cases hdm : (w.days.any fun d =>
      match parseDay d with
      | some wd => wd == weekdayAt off t
      | none => false) with
  | true =>
    have hmem : weekdayAt off t ∈ windowWeekdays w := (anyDay_iff w.days (weekdayAt off t)).mp hdm
    simp [hdm, hmem, startMinutesOf, endMinutesOf, windowWeekdays]
    exact fun _ _ => List.mem_filterMap.mp hmem
  | false =>
    have hnm : ¬ weekdayAt off t ∈ windowWeekdays w := by
      intro hmem
      rw [windowWeekdays, ← anyDay_iff w.days (weekdayAt off t)] at hmem
      rw [hdm] at hmem
      cases hmem
    simp [hdm, hnm]

/-- Witness for C6 at a concrete validated window and a time inside it:
Saturday 04:00 UTC against a Saturday 03:00-05:00 UTC window. -/
theorem isInWindow_iff_witness :
    validateWindow dbUTC c6Window = true ∧
    (IsInWindow dbUTC c6Window c6Time = true ↔
      (weekdayAt 0 c6Time ∈ windowWeekdays c6Window ∧
       startMinutesOf c6Window ≤ minuteOfDayAt 0 c6Time ∧
       minuteOfDayAt 0 c6Time < endMinutesOf c6Window)) :=
  ⟨by decide, isInWindow_iff dbUTC c6Window c6Time 0 (by decide) (by decide)⟩

/-! ## C7: the next window start is the earliest per-window next start -/

theorem parseDay_range (s : String) (k : Int) (h : parseDay s = some k) :
    0 ≤ k ∧ k < 7 := by
  simp only [parseDay] at h
  split_ifs at h <;> simp_all <;> omega

theorem parseTime_range (s : String) (h0 m0 : Int) (hp : parseTime s = some (h0, m0)) :
    0 ≤ h0 ∧ h0 ≤ 23 ∧ 0 ≤ m0 ∧ m0 ≤ 59 := by
  unfold parseTime at hp
  split at hp
  · cases hp
  · split at hp
    · split at hp
      · split at hp
        · cases hp
        · split at hp
          · cases hp
          · cases hp
            rename_i hcond1 hcond2
            omega
      · cases hp
    · cases hp

theorem parseTimeD_nonneg (s : String) :
    0 ≤ (parseTimeD s).1 ∧ 0 ≤ (parseTimeD s).2 := by
  unfold parseTimeD
  cases hp : parseTime s with
  | none => simp
  | some p =>
    obtain ⟨h0, m0⟩ := p
    have hr := parseTime_range s h0 m0 hp
    simp
    omega

theorem nextStart_gt_zero (db : ZoneDB) (w : MaintenanceWindow) (t off : Int)
    (hval : validateWindow db w = true)
    (hloc : loadLocation db w.timezone = some off)
    (hol : -1440 ≤ off) (hou : off ≤ 1440) (ht : 0 ≤ t) :
    goZeroTime < NextStart db w t := by
  have hwd : w.days.filterMap parseDay ≠ [] := by
    simp only [validateWindow, decide_eq_true_eq] at hval
    obtain ⟨hd1, hd2, _⟩ := hval
    cases hds : w.days with
    | nil => exact absurd hds hd1
    | cons d ds =>
      have hsome : (parseDay d).isSome := by
        have hx := List.all_eq_true.mp hd2 d (by rw [hds]; simp)
        simpa using hx
      obtain ⟨n, hn⟩ := Option.isSome_iff_exists.mp hsome
      exact List.ne_nil_of_mem (List.mem_filterMap.mpr ⟨d, by simp, hn⟩)
  have hsn := parseTimeD_nonneg w.startTime
  have hD : -1 ≤ (t + off) / 1440 := by
    have h1 : (-1440 : Int) ≤ t + off := by omega
    have h2 := Int.ediv_le_ediv (by norm_num : (0 : Int) < 1440) h1
    have h3 : (-1440 : Int) / 1440 = -1 := by decide
    omega
  unfold NextStart
  rw [hloc]
  dsimp only
  rw [if_neg hwd]
  show goZeroTime < _
  split
  · unfold goZeroTime
    omega
  · split
    next k hk =>
      have hknn : (0 : Int) ≤ (k : Int) := Int.ofNat_nonneg k
      unfold goZeroTime
      omega
    next hnone =>
      exfalso
      obtain ⟨n, hn⟩ := List.exists_mem_of_ne_nil _ hwd
      obtain ⟨d, hd, hpd⟩ := List.mem_filterMap.mp hn
      have hr := parseDay_range d n hpd
      have hc0 : 0 ≤ weekdayAt off t := Int.emod_nonneg _ (by norm_num)
      have hc1 : weekdayAt off t < 7 := Int.emod_lt_of_pos _ (by norm_num)
      have hex : ∃ k : Nat, 1 ≤ k ∧ k ≤ 7 ∧
          (weekdayAt off t + (k : Int)) % 7 = n := by
        by_cases hnc : weekdayAt off t < n
        · exact ⟨(n - weekdayAt off t).toNat, by omega, by omega, by omega⟩
        · exact ⟨(n - weekdayAt off t + 7).toNat, by omega, by omega, by omega⟩
      obtain ⟨k, hk1, hk7, hkeq⟩ := hex
      have hkmem : k ∈ List.range' 1 7 := List.mem_range'_1.mpr ⟨hk1, by omega⟩
      have hnp := List.find?_eq_none.mp hnone k hkmem
      apply hnp
      rw [hkeq]
      exact List.elem_iff.mpr hn

theorem foldl_earliestOf (l : List Int) (a : Int) (ha : goZeroTime < a)
    (hl : ∀ x ∈ l, goZeroTime < x) :
    (l.foldl earliestOf a = a ∨ l.foldl earliestOf a ∈ l) ∧
    l.foldl earliestOf a ≤ a ∧
    ∀ x ∈ l, l.foldl earliestOf a ≤ x := by
  induction l generalizing a with
  | nil =>
    refine ⟨Or.inl rfl, le_refl a, fun x hx => absurd hx (List.not_mem_nil x)⟩
  | cons x xs ih =>
    rw [List.foldl_cons]
    have hax : (a == goZeroTime) = false := beq_eq_false_iff_ne.mpr (by omega)
    have hx0 : goZeroTime < x := hl x (by simp)
    have hstep : earliestOf a x = if x < a then x else a := by
      unfold earliestOf
      rw [hax]
      simp
    by_cases hxa : x < a
    · rw [hstep, if_pos hxa]
      obtain ⟨hmem, hle, hall⟩ := ih x hx0 (fun y hy => hl y (by simp [hy]))
      refine ⟨?_, by omega, ?_⟩
      · rcases hmem with h | h
        · exact Or.inr (by simp [h])
        · exact Or.inr (by simp [h])
      · intro y hy
        rcases List.mem_cons.mp hy with rfl | hy'
        · exact hle
        · exact hall y hy'
    · rw [hstep, if_neg hxa]
      obtain ⟨hmem, hle, hall⟩ := ih a ha (fun y hy => hl y (by simp [hy]))
      refine ⟨?_, hle, ?_⟩
      · rcases hmem with h | h
        · exact Or.inl h
        · exact Or.inr (by simp [h])
      · intro y hy
        rcases List.mem_cons.mp hy with rfl | hy'
        · omega
        · exact hall y hy'

/-- C7: with the feature disabled or no windows configured,
`NextWindowStart` is the zero time; for an enabled, non-empty, validated
configuration (zone offsets within a day of UTC) and any time at or after
the epoch, `NextWindowStart` is a lower bound of every per-window
`NextStart` and is attained by one of the windows — it is the earliest of
the per-window next starts, and with two windows the earlier of the two
candidates. -/
theorem nextWindowStart_earliest (db : ZoneDB) (m : MaintenanceWindowsConfig) (t : Int) :
    ((¬ m.enabled ∨ m.windows = []) → NextWindowStart db m t = goZeroTime) ∧
    (m.enabled = true → m.windows ≠ [] → 0 ≤ t →
     (∀ w ∈ m.windows, validateWindow db w = true) →
     (∀ w ∈ m.windows, ∃ off, loadLocation db w.timezone = some off ∧
        -1440 ≤ off ∧ off ≤ 1440) →
     (∀ w ∈ m.windows, NextWindowStart db m t ≤ NextStart db w t) ∧
     ∃ w ∈ m.windows, NextWindowStart db m t = NextStart db w t) := by
  constructor
  · intro h
    unfold NextWindowStart
    rw [if_pos h]
  · intro hen hne ht hval hoff
    obtain ⟨w0, rest, hws⟩ : ∃ w0 rest, m.windows = w0 :: rest := by
      cases hws : m.windows with
      | nil => exact absurd hws hne
      | cons a b => exact ⟨a, b, rfl⟩
    have hlt : ∀ w ∈ m.windows, goZeroTime < NextStart db w t := by
      intro w hw
      obtain ⟨off, hl, hol, hou⟩ := hoff w hw
      exact nextStart_gt_zero db w t off (hval w hw) hl hol hou ht
    have hmain : NextWindowStart db m t =
        (m.windows.map (fun w => NextStart db w t)).foldl earliestOf goZeroTime := by
      unfold NextWindowStart
      rw [if_neg (not_or.mpr ⟨by simp [hen], hne⟩), List.foldl_map]
    rw [hws] at hlt hmain ⊢
    have h00 : earliestOf goZeroTime (NextStart db w0 t) = NextStart db w0 t := by
      unfold earliestOf
      simp
    rw [List.map_cons, List.foldl_cons, h00] at hmain
    obtain ⟨hmem, hle, hall⟩ := foldl_earliestOf (rest.map (fun w => NextStart db w t))
      (NextStart db w0 t) (hlt w0 (by simp))
      (fun y hy => by
        obtain ⟨w, hw, rfl⟩ := List.mem_map.mp hy
        exact hlt w (by simp [hw]))
    constructor
    · intro w hw
      rcases List.mem_cons.mp hw with rfl | hw'
      · rw [hmain]
        exact hle
      · rw [hmain]
        exact hall (NextStart db w t) (List.mem_map_of_mem _ hw')
    · rcases hmem with h | h
      · exact ⟨w0, by simp, hmain.trans h⟩
      · obtain ⟨w, hw, hwe⟩ := List.mem_map.mp h
        exact ⟨w, by simp [hw], hmain.trans hwe.symm⟩

/-- Witness for C7: two UTC windows (Saturday 03:00-05:00 and Wednesday
02:00-04:00) evaluated Monday 2026-02-02 10:00 UTC; the enabled branch of
the theorem applies and the disabled branch is exercised on the
empty-window configuration. -/
theorem nextWindowStart_earliest_witness :
    ((∀ w ∈ c7Config.windows,
        NextWindowStart dbUTC c7Config c7Time ≤ NextStart dbUTC w c7Time) ∧
      ∃ w ∈ c7Config.windows,
        NextWindowStart dbUTC c7Config c7Time = NextStart dbUTC w c7Time) ∧
    NextWindowStart dbUTC ⟨false, []⟩ c7Time = goZeroTime := by
  constructor
  · refine (nextWindowStart_earliest dbUTC c7Config c7Time).2 (by decide) (by decide)
      (by decide) (by decide) ?_
    intro w hw
    rcases List.mem_cons.mp hw with rfl | hw2
    · exact ⟨0, rfl, by decide, by decide⟩
    · rcases List.mem_cons.mp hw2 with rfl | h3
      · exact ⟨0, rfl, by decide, by decide⟩
      · cases h3
  · exact (nextWindowStart_earliest dbUTC ⟨false, []⟩ c7Time).1 (Or.inr rfl)

end ISO
